import Mathlib

/-!
# Verification of the collaborative timer session broker (arowa)

A shallow embedding of the timer core (`src/shared/timer-core.js`), the
message codec (`src/server/server.ts` / `messages.ts`) and the session
broker (`SessionManager`), together with proofs settling the frozen
claims C1..C10 about the natural-language specification.

Modelling conventions:
* JavaScript strings are `List Char`; `String.prototype.trim` is
  `jsTrim` (drop JS whitespace from both ends), `substring(0, n)` is
  `List.take n`.
* JavaScript numbers that the program uses as integers (millisecond
  timestamps, durations, indices) are `Int`; `x || d` on a number is
  `if x = 0 then d else x` (0 is the only falsy integer here).
* `Date.now()` is an explicit `now : Int` argument threaded to every
  operation that reads the clock.
* `null`-able millisecond timestamps (`offlineAt`, `emptyAt`) use the
  sentinel `0` for `null`, exactly as `formatInternalSession` /
  `formatInternalUser` normalise them (`x || 0`).
* Array indexing `a[i]` with a possibly out-of-range `i` is `jsIndex`
  (`none` for a negative or too large index); `a[i]?.f ?? d` is
  `((jsIndex a i).map f).getD d`.
-/

set_option linter.unusedVariables false

namespace Arowa

abbrev Str := List Char

/-- JS whitespace test (the ASCII part of the `trim` character class:
space, TAB, LF, VT, FF, CR, plus NBSP). -/
def isJsWS (c : Char) : Bool :=
  c.toNat == 32 || (9 ≤ c.toNat && c.toNat ≤ 13) || c.toNat == 160

/-- `String.prototype.trim`: drop whitespace from both ends. -/
def jsTrim (s : Str) : Str := (s.dropWhile isJsWS).rdropWhile isJsWS

/-- `String.prototype.substring(0, n)`. -/
def jsSubstr (n : Nat) (s : Str) : Str := s.take n

/-- `String.prototype.toLowerCase` (ASCII). -/
def jsToLower (s : Str) : Str := s.map Char.toLower

/-! ## Shared constants (`src/shared/constants.js`) -/

def MAX_DURATION : Int := 86400
def MIN_DURATION : Int := 1
def DEFAULT_DURATION : Int := 1500
def MAX_STRING_LENGTH : Nat := 1000
def MAX_NAME_LENGTH : Nat := 50
def MAX_URL_LENGTH : Nat := 500
/-- `Number.MAX_SAFE_INTEGER`. -/
def MAX_SAFE_INTEGER : Int := 9007199254740991

/-- character class of `SESSION_ID_REGEX = /^[a-z0-9-]{3,64}$/` (ASCII codes). -/
def isSessionIdChar (c : Char) : Bool :=
  (97 ≤ c.toNat && c.toNat ≤ 122) || (48 ≤ c.toNat && c.toNat ≤ 57) || c.toNat == 45

/-- `SESSION_ID_REGEX.test` -/
def sessionIdOk (s : Str) : Bool :=
  3 ≤ s.length && s.length ≤ 64 && s.all isSessionIdChar

/-- character class of `CLIENT_ID_REGEX = /^[a-f0-9-]{36}$/` (ASCII codes). -/
def isClientIdChar (c : Char) : Bool :=
  (97 ≤ c.toNat && c.toNat ≤ 102) || (48 ≤ c.toNat && c.toNat ≤ 57) || c.toNat == 45

/-- `CLIENT_ID_REGEX.test` -/
def clientIdOk (s : Str) : Bool :=
  s.length == 36 && s.all isClientIdChar

/-! ## Data model: intervals and timer states -/

/-- An interval (`docs/specs/DATA_MODEL.md`, `formatInterval`). -/
structure Interval where
  name : Str
  duration : Int
  alert : Str
  customCSS : Str
  deriving DecidableEq, Repr

/-- JS array indexing `l[i]` as an `Option` (negative or out-of-range
index gives `undefined`). -/
def jsIndex (l : List Interval) (i : Int) : Option Interval :=
  if i < 0 then none else l.get? i.toNat

/-- `(l[i]?.duration ?? DEFAULT_DURATION) * 1000` for an `Int` index. -/
def durMsD (l : List Interval) (i : Int) : Int :=
  (((jsIndex l i).map Interval.duration).getD DEFAULT_DURATION) * 1000

/-- `l[c].duration * 1000` for a `Nat` index that the program keeps in
range (out of range falls back to the default duration; the `sync` loop
never reaches that case). -/
def durAt (l : List Interval) (c : Nat) : Int :=
  (((l.get? c).map Interval.duration).getD DEFAULT_DURATION) * 1000

/-- `(l[0]?.duration ?? DEFAULT_DURATION) * 1000`. -/
def headDurMs (l : List Interval) : Int :=
  ((l.head?.map Interval.duration).getD DEFAULT_DURATION) * 1000

/-- Public (wire) timer state (`TimerState`). -/
structure TimerState where
  repeatFlag : Bool
  interval : Int
  remaining : Int
  isRunning : Bool
  isPaused : Bool
  deriving DecidableEq, Repr

/-- Internal timer state (`TimerStateInternal`). -/
structure TimerStateInternal where
  repeatFlag : Bool
  interval : Int
  remaining : Int
  isRunning : Bool
  isPaused : Bool
  startedInterval : Int
  startedAt : Int
  pausedAt : Int
  timePaused : Int
  deriving DecidableEq, Repr

/-- The five public fields of an internal timer state. -/
def TimerStateInternal.pub (t : TimerStateInternal) : TimerState :=
  { repeatFlag := t.repeatFlag, interval := t.interval, remaining := t.remaining
    isRunning := t.isRunning, isPaused := t.isPaused }

/-! ## Timer core (`src/shared/timer-core.js`)

Each method of the mutable `TimerCore` class is a function from the old
instance (plus the clock) to the new instance. -/

structure TimerCore where
  intervals : List Interval
  state : TimerStateInternal
  deriving DecidableEq, Repr

/-- `new TimerCore(intervals)` -/
def TimerCore.init (intervals : List Interval) : TimerCore :=
  { intervals := intervals
    state :=
      { repeatFlag := false, interval := 0, remaining := headDurMs intervals
        isRunning := false, isPaused := false
        startedInterval := 0, startedAt := 0, pausedAt := 0, timePaused := 0 } }

/-- `TimerCore.resume` -/
def TimerCore.resume (now : Int) (tc : TimerCore) : TimerCore :=
  let t := tc.state
  if t.isPaused then
    { tc with state :=
        { t with isPaused := false, timePaused := t.timePaused + (now - t.pausedAt)
                 pausedAt := 0 } }
  else tc

/-- `TimerCore.start` -/
def TimerCore.start (now : Int) (tc : TimerCore) : TimerCore :=
  let t := tc.state
  let t1 :=
    if t.isPaused then (TimerCore.resume now tc).state
    else if !t.isRunning then
      { t with startedInterval := t.interval, startedAt := now, timePaused := 0 }
    else t
  { tc with state := { t1 with isRunning := true, isPaused := false, pausedAt := 0 } }

/-- `TimerCore.pause` -/
def TimerCore.pause (now : Int) (tc : TimerCore) : TimerCore :=
  { tc with state := { tc.state with isPaused := true, pausedAt := now } }

/-- The fully reset state that `stop()` (and the end-of-list transition
inside `sync()`) installs. -/
def stoppedState (intervals : List Interval) (rp : Bool) : TimerStateInternal :=
  { repeatFlag := rp, interval := 0, remaining := headDurMs intervals
    isRunning := false, isPaused := false
    startedInterval := 0, startedAt := 0, pausedAt := 0, timePaused := 0 }

/-- `TimerCore.stop` -/
def TimerCore.stop (tc : TimerCore) : TimerCore :=
  { tc with state := stoppedState tc.intervals tc.state.repeatFlag }

/-- The method `TimerCore.repeat(value?)`; `none` models the omitted
argument (`repeat` is a reserved word in Lean, hence the rename). -/
def TimerCore.repeatOp (value : Option Bool) (tc : TimerCore) : TimerCore :=
  { tc with state := { tc.state with repeatFlag := value.getD (!tc.state.repeatFlag) } }

/-- `TimerCore.next` -/
def TimerCore.next (now : Int) (tc : TimerCore) : TimerCore :=
  let t := tc.state
  let i1 := if t.interval + 1 ≥ (tc.intervals.length : Int) then 0 else t.interval + 1
  let t1 := { t with interval := i1, remaining := durMsD tc.intervals i1 }
  if t.isRunning then
    { tc with state :=
        { t1 with startedInterval := i1, startedAt := now
                  pausedAt := if t.isPaused then now else 0, timePaused := 0 } }
  else { tc with state := t1 }

/-- Result of the interval-advancing `while` loop inside `sync()`:
normal exit with the current index and leftover elapsed time, the
end-of-list stop transition, or fuel exhaustion (the JS loop diverges
exactly when the fuel bound of `TimerCore.sync` is insufficient, which
needs a non-positive interval duration). -/
inductive SyncLoopRes where
  | out (current : Nat) (remaining : Int)
  | reset
  | fuelOut
  deriving DecidableEq, Repr

/-- The `while (remaining > 0)` loop of `TimerCore.sync`. -/
def syncLoop (items : List Interval) (rp : Bool) :
    Nat → Nat → Int → SyncLoopRes
  | 0, _, _ => .fuelOut
  | fuel + 1, current, remaining =>
    if remaining ≤ 0 then .out current remaining
    else
      let duration := durAt items current
      if remaining < duration then .out current remaining
      else
        let remaining1 := remaining - duration
        let current1 := current + 1
        if current1 ≥ items.length then
          if rp then syncLoop items rp fuel 0 remaining1
          else .reset
        else syncLoop items rp fuel current1 remaining1

/-- The in-flight pause offset computed by `sync()`. -/
def syncOffset (t : TimerStateInternal) (now : Int) : Int :=
  if t.isPaused && t.pausedAt > 0 then now - t.pausedAt else 0

/-- The elapsed time computed by `sync()`:
`now - startedAt - timePaused - offset`. -/
def syncElapsed (t : TimerStateInternal) (now : Int) : Int :=
  now - t.startedAt - t.timePaused - syncOffset t now

/-- The loop entry index of `sync()`: `startedInterval`, wrapped to `0`
when out of range. -/
def syncStartIdx (items : List Interval) (t : TimerStateInternal) : Nat :=
  if t.startedInterval ≥ (items.length : Int) then 0 else t.startedInterval.toNat

/-- `TimerCore.sync`.  `none` models divergence of the JS `while` loop,
which can only happen when some interval duration is `≤ 0` (the codec
clamps all durations to `≥ 1`, so the broker never reaches it). -/
def TimerCore.sync (now : Int) (tc : TimerCore) : Option TimerCore :=
  let t := tc.state
  if !t.isRunning || t.startedAt == 0 then some tc
  else if tc.intervals.length == 0 then some tc
  else
    match syncLoop tc.intervals t.repeatFlag ((syncElapsed t now).toNat + 1)
        (syncStartIdx tc.intervals t) (syncElapsed t now) with
    | .fuelOut => none
    | .reset => some { tc with state := stoppedState tc.intervals t.repeatFlag }
    | .out c r =>
      some { tc with state :=
        { t with interval := (c : Int), remaining := durAt tc.intervals c - r } }

/-- `TimerCore.updateIntervals` -/
def TimerCore.updateIntervals (now : Int) (intervals : List Interval) (tc : TimerCore) : TimerCore :=
  let t := tc.state
  if t.interval ≥ (intervals.length : Int) then
    { intervals := intervals
      state :=
        { t with remaining := headDurMs intervals, interval := 0, startedInterval := 0
                 startedAt := if t.startedAt == 0 then 0 else now
                 pausedAt := if t.pausedAt == 0 then 0 else now
                 timePaused := 0 } }
  else
    let duration := durMsD intervals t.interval
    if t.isRunning then
      let elapsed := now - t.startedAt - t.timePaused
      let t1 :=
        { t with startedAt := now - elapsed, startedInterval := t.interval
                 timePaused := 0, pausedAt := if t.isPaused then now else 0 }
      if t.remaining > duration then
        { intervals := intervals, state := { t1 with remaining := duration, startedAt := now } }
      else { intervals := intervals, state := t1 }
    else { intervals := intervals, state := { t with remaining := duration } }

/-- `TimerCore.updateState` -/
def TimerCore.updateState (now : Int) (s : TimerState) (tc : TimerCore) : TimerCore :=
  let duration := durMsD tc.intervals s.interval
  let elapsed := duration - s.remaining
  { tc with state :=
      { repeatFlag := s.repeatFlag, interval := s.interval, remaining := s.remaining
        isRunning := s.isRunning, isPaused := s.isPaused
        startedInterval := s.interval
        startedAt := if s.isRunning then now - elapsed else 0
        pausedAt := if s.isPaused then now else 0
        timePaused := 0 } }

/-- `TimerCore.getState` -/
def TimerCore.getState (tc : TimerCore) : TimerStateInternal := tc.state

example : (TimerCore.init []).state.remaining = 1500000 := by decide

/-! ## Message codec (`src/server/messages.ts`)

Raw inbound JSON is modelled by records whose fields can hold the
"unsanitised" shapes the formatters test for: `items` may be a
non-array (`ItemsVal.notArr`), `lastUpdated` may be absent.  The
formatters map these records to themselves, so idempotence is a
statement about one function. -/

/-- The value found at `intervals.items`: either a JS array of interval
objects or any non-array value (the codec only ever asks
`Array.isArray`). -/
inductive ItemsVal where
  | arr (items : List Interval)
  | notArr
  deriving DecidableEq, Repr

/-- `ItemsVal.arr l` for some `l`. -/
def ItemsVal.isArr : ItemsVal → Bool
  | .arr _ => true
  | .notArr => false

/-- The `items` list, with a non-array read as `[]` (only used where the
source has already established `Array.isArray`). -/
def ItemsVal.list : ItemsVal → List Interval
  | .arr l => l
  | .notArr => []

/-- An `IntervalList` as found on the wire (`lastUpdated` may be
absent). -/
structure IntervalList where
  lastUpdated : Option Int
  items : ItemsVal
  deriving DecidableEq, Repr

/-- A wire user object (`User`): no `offlineAt` field. -/
structure User where
  clientId : Str
  name : Str
  avatarUrl : Str
  isOnline : Bool
  deriving DecidableEq, Repr

/-- A wire session-update object (`SessionUpdate`). -/
structure SessionUpdate where
  name : Str
  description : Str
  intervals : IntervalList
  deriving DecidableEq, Repr

/-- `formatSessionId` -/
def formatSessionId (input : Str) : Str :=
  if sessionIdOk (jsTrim input) then jsTrim input else []

/-- `formatClientId`; `fresh` is the UUID v4 that `generateUUID()` would
produce for an invalid input (randomness is made an argument). -/
def formatClientId (fresh : Str) (input : Str) : Str :=
  if clientIdOk (jsTrim (jsToLower input)) then jsTrim (jsToLower input) else fresh

/-- `formatUser` on a wire user (`'offlineAt' in user` is false, so
`isOnline` is set to `true`). -/
def formatUser (u : User) : User :=
  { clientId := u.clientId
    name := jsSubstr MAX_NAME_LENGTH (jsTrim u.name)
    avatarUrl := jsSubstr MAX_URL_LENGTH (jsTrim u.avatarUrl)
    isOnline := true }

/-- `formatInterval` -/
def formatInterval (iv : Interval) : Interval :=
  { name := jsSubstr MAX_NAME_LENGTH (jsTrim iv.name)
    duration := max MIN_DURATION (min (if iv.duration = 0 then DEFAULT_DURATION else iv.duration) MAX_DURATION)
    alert :=
      if jsSubstr MAX_NAME_LENGTH (jsTrim iv.alert) = [] then "Default".toList
      else jsSubstr MAX_NAME_LENGTH (jsTrim iv.alert)
    customCSS := jsTrim iv.customCSS }

/-- `formatIntervalList`; `now` stands for the `Date.now()` used when
`lastUpdated` is absent. -/
def formatIntervalList (now : Int) (il : IntervalList) : IntervalList :=
  { lastUpdated := some (il.lastUpdated.getD now)
    items :=
      match il.items with
      | .arr l => .arr (l.map formatInterval)
      | .notArr => .arr [] }

/-- `formatTimer` -/
def formatTimer (t : TimerState) : TimerState :=
  { repeatFlag := t.repeatFlag
    interval := max 0 (min t.interval MAX_SAFE_INTEGER)
    remaining :=
      max 0 (min (if t.remaining = 0 then DEFAULT_DURATION * 1000 else t.remaining)
        (MAX_DURATION * 1000))
    isRunning := t.isRunning
    isPaused := t.isPaused }

/-- `formatSessionUpdate` -/
def formatSessionUpdate (now : Int) (s : SessionUpdate) : SessionUpdate :=
  { name := jsSubstr MAX_STRING_LENGTH (jsTrim s.name)
    description := jsSubstr MAX_STRING_LENGTH (jsTrim s.description)
    intervals := formatIntervalList now s.intervals }

/-- The six inbound message shapes accepted by `formatIncoming` (all
other `type` values make it throw, which the session manager turns
into an error reply; those never reach a handler). -/
inductive Msg where
  | sessionJoin (sessionId : Str) (session : SessionUpdate) (timer : TimerState) (user : User)
  | sessionUpdate (session : SessionUpdate) (timer : Option TimerState)
  | timerUpdate (timer : TimerState)
  | userUpdate (user : User)
  | userList
  | ping
  deriving DecidableEq, Repr

/-- `formatSessionJoinMsg` -/
def formatSessionJoinMsg (now : Int) (sessionId : Str) (session : SessionUpdate)
    (timer : TimerState) (user : User) : Msg :=
  .sessionJoin (formatSessionId sessionId) (formatSessionUpdate now session)
    (formatTimer timer) (formatUser user)

/-- `formatSessionUpdateMsg` (the `timer` key is kept only when present:
`...(message?.timer ? { timer: formatTimer(...) } : {})`). -/
def formatSessionUpdateMsg (now : Int) (session : SessionUpdate)
    (timer : Option TimerState) : Msg :=
  .sessionUpdate (formatSessionUpdate now session) (timer.map formatTimer)

/-- `formatIncoming`: dispatch to the per-type formatter. -/
def formatIncoming (now : Int) : Msg → Msg
  | .sessionJoin sessionId session timer user =>
    formatSessionJoinMsg now sessionId session timer user
  | .sessionUpdate session timer => formatSessionUpdateMsg now session timer
  | .timerUpdate timer => .timerUpdate (formatTimer timer)
  | .userUpdate user => .userUpdate (formatUser user)
  | .userList => .userList
  | .ping => .ping

/-! ## Session broker (`SessionManager`, the sockets-map version) -/

def CLEANUP_INTERVAL : Int := 300000
def SESSION_TIMEOUT : Int := 600000

/-- hex digit characters used by a hex digest. -/
def hexDigit (n : Nat) : Char :=
  if n < 10 then Char.ofNat (48 + n) else Char.ofNat (87 + n)

/-- Modelled from the spec: `hashString` calls the external
`crypto.createHash('sha256')...digest('hex')`, which is not part of this
repository.  Per the spec it is a deterministic map from strings to
64-character lowercase hexadecimal digests; it is modelled here as such
(a concrete injective-in-practice fold, not real SHA-256). -/
def hashString (s : Str) : Str :=
  let seed := s.foldl (fun n c => n * 1114111 + c.toNat + 1) 1
  (List.range 64).map fun i => hexDigit (seed / 16 ^ (63 - i) % 16)

/-- One WebSocket connection as the broker sees it: its per-connection
id and whether `readyState === 1`. -/
structure Socket where
  sid : Str
  ready : Bool
  deriving DecidableEq, Repr

/-- Internal user record (`UserInternal` of the sockets-map
`SessionManager`): `clientId` holds the externalised id field,
`offlineAt = 0` means `null`. -/
structure UserInternal where
  clientId : Str
  name : Str
  avatarUrl : Str
  isOnline : Bool
  lastPing : Int
  offlineAt : Int
  sockets : List Socket
  deriving DecidableEq, Repr

/-- `formatUser` on an internal user (`'offlineAt' in user` is true, so
`isOnline := Boolean(!user.offlineAt)`). -/
def formatUserIx (u : UserInternal) : User :=
  { clientId := u.clientId
    name := jsSubstr MAX_NAME_LENGTH (jsTrim u.name)
    avatarUrl := jsSubstr MAX_URL_LENGTH (jsTrim u.avatarUrl)
    isOnline := u.offlineAt == 0 }

/-- `formatInternalUser`.  The copy of `messages.ts` in `src/` predates
the sockets-map `SessionManager` and still carries a single `ws` handle;
the handler passes a `sockets` map.  Modelled from the spec: the user's
socket set is carried through unchanged (§3 User internal), the display
fields go through `formatUser`, `lastPing` defaults to `Date.now()` and
`offlineAt` to `0`. -/
def formatInternalUser (now : Int) (u : UserInternal) : UserInternal :=
  { clientId := u.clientId
    name := jsSubstr MAX_NAME_LENGTH (jsTrim u.name)
    avatarUrl := jsSubstr MAX_URL_LENGTH (jsTrim u.avatarUrl)
    isOnline := u.offlineAt == 0
    lastPing := if u.lastPing = 0 then now else u.lastPing
    offlineAt := u.offlineAt
    sockets := u.sockets }

/-- Internal session record (`SessionInternal`): `emptyAt = 0` means
`null`; `core` is the owned `TimerCore`; `users` is keyed by the raw
routing `clientId` (`ws.clientId`). -/
structure SessionInternal where
  sessionId : Str
  name : Str
  description : Str
  intervals : IntervalList
  timer : TimerStateInternal
  core : TimerCore
  users : List (Str × UserInternal)
  createdAt : Int
  lastActivity : Int
  emptyAt : Int
  deriving DecidableEq, Repr

/-- `formatUserList`: externalise the roster, keyed by the stored
`clientId` field, skipping users with an empty id. -/
def formatUserList (users : List (Str × UserInternal)) : List (Str × User) :=
  users.filterMap fun p =>
    if p.2.clientId ≠ [] then some (p.2.clientId, formatUserIx p.2) else none

/-- The sanitized external form of a session (`formatSession`). -/
structure SessionPub where
  sessionId : Str
  name : Str
  description : Str
  intervals : IntervalList
  timer : TimerState
  users : List (Str × User)
  deriving DecidableEq, Repr

/-- `formatSession` -/
def formatSession (now : Int) (s : SessionInternal) : SessionPub :=
  { sessionId := formatSessionId s.sessionId
    name := jsSubstr MAX_STRING_LENGTH (jsTrim s.name)
    description := jsSubstr MAX_STRING_LENGTH (jsTrim s.description)
    intervals := formatIntervalList now s.intervals
    timer := formatTimer s.timer.pub
    users := formatUserList s.users }

/-- `formatInternalTimer`: public fields via `formatTimer`, internal
timing fields passed through (`|| 0`). -/
def formatInternalTimer (t : TimerStateInternal) : TimerStateInternal :=
  let w := formatTimer t.pub
  { repeatFlag := w.repeatFlag, interval := w.interval, remaining := w.remaining
    isRunning := w.isRunning, isPaused := w.isPaused
    startedInterval := t.startedInterval, startedAt := t.startedAt
    pausedAt := t.pausedAt, timePaused := t.timePaused }

/-- `formatInternalSession` (the canonicalisation `setSession` applies
before storing). -/
def formatInternalSession (now : Int) (s : SessionInternal) : SessionInternal :=
  { sessionId := formatSessionId s.sessionId
    name := jsSubstr MAX_STRING_LENGTH (jsTrim s.name)
    description := jsSubstr MAX_STRING_LENGTH (jsTrim s.description)
    intervals := formatIntervalList now s.intervals
    timer := formatInternalTimer s.timer
    core := s.core
    users := s.users.map fun p => (p.1, formatInternalUser now p.2)
    createdAt := if s.createdAt = 0 then now else s.createdAt
    lastActivity := if s.lastActivity = 0 then now else s.lastActivity
    emptyAt := s.emptyAt }

/-- Outbound (already formatted) messages. -/
inductive OutMsg where
  | errorMsg (message : Str)
  | sessionCreated (sessionId clientId : Str)
  | sessionJoined (sessionId clientId : Str) (session : SessionPub)
  | sessionUpdated (sessionId name description : Str) (intervals : IntervalList)
  | timerUpdated (sessionId : Str) (timer : TimerState)
  | userConnected (sessionId : Str) (user : User)
  | userDisconnected (sessionId : Str) (user : User)
  | userUpdated (sessionId : Str) (user : User)
  | usersConnected (sessionId : Str) (users : List (Str × User))
  deriving DecidableEq, Repr

/-- A frame delivered to one socket. -/
structure Send where
  sid : Str
  msg : OutMsg
  deriving DecidableEq, Repr

/-- `formatErrorMsg` -/
def formatErrorMsg (message : Str) : OutMsg :=
  .errorMsg (if jsTrim message = [] then "Unknown error".toList else jsTrim message)

/-- `sendMessage`: dropped unless `readyState === 1`. -/
def sendTo (sid : Str) (ready : Bool) (m : OutMsg) : List Send :=
  if ready then [⟨sid, m⟩] else []

/-- `broadcastToSession`: every socket of every user, skipping the
`ignore`d clientId, the `exclude`d socketId, and non-open sockets. -/
def broadcastToSession (s : SessionInternal) (m : OutMsg)
    (exclude ignore : Option Str) : List Send :=
  s.users.flatMap fun p =>
    if ignore = some p.1 then []
    else p.2.sockets.filterMap fun sk =>
      if exclude = some sk.sid then none
      else if sk.ready then some ⟨sk.sid, m⟩ else none

/-- `formatSessionUpdatedMsg` (note: `name`/`description` are trimmed
but not truncated here). -/
def formatSessionUpdatedMsg (now : Int) (s : SessionInternal) : OutMsg :=
  .sessionUpdated (formatSessionId s.sessionId) (jsTrim s.name) (jsTrim s.description)
    (formatIntervalList now s.intervals)

/-- `formatTimerUpdatedMsg` -/
def formatTimerUpdatedMsg (s : SessionInternal) : OutMsg :=
  .timerUpdated (formatSessionId s.sessionId) (formatTimer s.timer.pub)

/-- does a session have any user with an open socket? (the
`hasOnline` checks of `handleSessionJoin` / `removeClient`). -/
def anyReady (s : SessionInternal) : Bool :=
  s.users.any fun p => p.2.sockets.any Socket.ready

/-- replace the record of one user (JS in-place assignment on the users
object). -/
def updUser (cid : Str) (u : UserInternal) (users : List (Str × UserInternal)) :
    List (Str × UserInternal) :=
  users.map fun p => if p.1 = cid then (p.1, u) else p

/-- `SessionManager.handleSessionUpdate`, for a client whose session was
resolved (`getSocketSession` bumps `lastActivity` and re-stores).  The
first component of the result is the canonicalised session in the store
after the handler, the second the frames sent.  `none` models
divergence of `sync()` (impossible for codec-clamped durations). -/
def handleSessionUpdate (now : Int) (senderSid : Str) (senderReady : Bool)
    (session0 : SessionInternal) (update : SessionUpdate)
    (timer : Option TimerState) : Option (SessionInternal × List Send) :=
  let s := { session0 with lastActivity := now }
  if !update.intervals.items.isArr then
    some (formatInternalSession now s,
      sendTo senderSid senderReady (formatErrorMsg "Invalid intervals data".toList))
  else
    let s1 := { s with name := update.name, description := update.description
                       intervals := update.intervals }
    let core1 := TimerCore.updateIntervals now update.intervals.items.list s1.core
    match (match timer with
           | some tw => some (TimerCore.updateState now tw core1)
           | none => TimerCore.sync now core1) with
    | none => none
    | some core2 =>
      let s2 := { s1 with core := core2, timer := core2.state }
      let stored := formatInternalSession now s2
      let sends1 := broadcastToSession s2 (formatSessionUpdatedMsg now s2) (some senderSid) none
      match TimerCore.sync now core2 with
      | none => none
      | some core3 =>
        let s3 := { s2 with core := core3, timer := core3.state }
        some (stored,
          sends1 ++ broadcastToSession s3 (formatTimerUpdatedMsg s3) (some senderSid) none)

/-- `SessionManager.createSession` -/
def createSession (now : Int) (sessionId : Str) (update : SessionUpdate)
    (timer : TimerState) : SessionInternal :=
  let base : SessionInternal :=
    { sessionId := sessionId, name := update.name, description := update.description
      intervals := update.intervals
      timer :=
        { repeatFlag := false, interval := 0, remaining := 0, isRunning := false
          isPaused := false, startedInterval := 0, startedAt := 0, pausedAt := 0
          timePaused := 0 }
      core := TimerCore.init update.intervals.items.list
      users := [], createdAt := 0, lastActivity := 0, emptyAt := 0 }
  let session := formatInternalSession now base
  let core1 := TimerCore.updateIntervals now session.intervals.items.list session.core
  let core2 := TimerCore.updateState now timer core1
  { session with core := core2, timer := core2.state }

/-- `SessionManager.handleSessionJoin`.  `freshSocketId` is the
`generateUUID()` assigned to `ws.socketId`, `freshUuid` the one
`formatClientId` would generate for an invalid wire `clientId`.  The
joining socket is open.  Result as in `handleSessionUpdate`. -/
def handleSessionJoin (now : Int) (freshSocketId freshUuid : Str) (sessionId : Str)
    (update : SessionUpdate) (timer : TimerState) (user : User)
    (store : Option SessionInternal) : Option (SessionInternal × List Send) :=
  let cid := formatClientId freshUuid user.clientId
  let (session0, isNew) :=
    match store with
    | some s => (s, false)
    | none => (createSession now sessionId update timer, true)
  (TimerCore.sync now session0.core).map fun core1 =>
  let session1 := { session0 with core := core1, timer := core1.state }
  let (session2, joinedUser) :=
    match session1.users.lookup cid with
    | some existing =>
      let socks := existing.sockets ++ [⟨freshSocketId, true⟩]
      let merged := formatInternalUser now
        { clientId := user.clientId, name := user.name, avatarUrl := user.avatarUrl
          isOnline := user.isOnline, lastPing := now, offlineAt := 0, sockets := socks }
      let s1 := { session1 with users := updUser cid merged session1.users }
      let hasOnline := anyReady s1
      (if hasOnline && s1.emptyAt ≠ 0 then { s1 with emptyAt := 0 } else s1, merged)
    | none =>
      let newUser := formatInternalUser now
        { clientId := hashString cid, name := user.name, avatarUrl := user.avatarUrl
          isOnline := true, lastPing := now, offlineAt := 0
          sockets := [⟨freshSocketId, true⟩] }
      ({ session1 with users := session1.users ++ [(cid, newUser)] }, newUser)
  let stored := formatInternalSession now session2
  let reply :=
    if isNew then OutMsg.sessionCreated (formatSessionId sessionId) (formatClientId [] cid)
    else OutMsg.sessionJoined (formatSessionId sessionId) (formatClientId [] cid)
      (formatSession now session2)
  let broadcast := broadcastToSession session2
    (.userConnected (formatSessionId session2.sessionId) (formatUserIx joinedUser))
    (some freshSocketId) (some cid)
  (stored, ⟨freshSocketId, reply⟩ :: broadcast)

/-- the transport adapter reporting a close: that socket's
`readyState` is no longer 1. -/
def markSocketClosed (sid : Str) (s : SessionInternal) : SessionInternal :=
  { s with users := s.users.map fun p =>
      (p.1, { p.2 with sockets := p.2.sockets.map fun sk =>
        if sk.sid = sid then { sk with ready := false } else sk }) }

/-- `SessionManager.removeClient` -/
def removeClient (now : Int) (sid cid : Str) (s : SessionInternal) :
    SessionInternal × List Send :=
  match s.users.lookup cid with
  | none => (s, [])
  | some user =>
    let socks := user.sockets.filter fun sk => sk.sid != sid
    if socks.length > 0 then
      ({ s with users := updUser cid { user with sockets := socks } s.users }, [])
    else
      let user1 := { user with sockets := socks, offlineAt := now }
      let s1 := { s with users := updUser cid user1 s.users }
      let sends := broadcastToSession s1
        (.userUpdated (formatSessionId s1.sessionId) (formatUserIx user1))
        (some sid) (some cid)
      let s2 := if !anyReady s1 && s1.emptyAt == 0 then { s1 with emptyAt := now } else s1
      (s2, sends)

/-- a socket close as the broker experiences it: the transport marks the
connection closed, then calls `removeClient`. -/
def closeSocketOp (now : Int) (sid cid : Str) (s : SessionInternal) :
    SessionInternal × List Send :=
  removeClient now sid cid (markSocketClosed sid s)

/-- `SessionManager.trackOfflineUsers` -/
def trackOfflineUsers (now : Int) (s : SessionInternal) : SessionInternal :=
  { s with users := s.users.map fun p =>
      let isOnline := p.2.sockets.any Socket.ready
      if !isOnline && p.2.offlineAt == 0 then (p.1, { p.2 with offlineAt := now })
      else if isOnline && p.2.offlineAt != 0 then (p.1, { p.2 with offlineAt := 0 })
      else p }

/-- `SessionManager.cleanupOfflineUsers` (for one session): track, reap
users offline longer than `CLEANUP_INTERVAL` (broadcasting
`user_disconnected`), then stamp `emptyAt` if the roster emptied. -/
def cleanupOfflineUsers (now : Int) (s : SessionInternal) : SessionInternal × List Send :=
  let s1 := trackOfflineUsers now s
  let removeIds := (s1.users.filter fun p =>
    p.2.offlineAt != 0 && now - p.2.offlineAt > CLEANUP_INTERVAL).map Prod.fst
  let step := fun (acc : SessionInternal × List Send) (cidR : Str) =>
    match acc.1.users.lookup cidR with
    | none => acc
    | some u =>
      let s2 := { acc.1 with users := acc.1.users.filter fun p => p.1 != cidR }
      (s2, acc.2 ++ broadcastToSession s2
        (.userDisconnected (formatSessionId s2.sessionId) (formatUserIx u)) none (some cidR))
  let (s3, sends) := removeIds.foldl step (s1, [])
  (if s3.users.length == 0 && s3.emptyAt == 0 then { s3 with emptyAt := now } else s3, sends)

/-- `SessionManager.cleanupSessions` (for one session): delete it when no
user has an open socket and it has been empty longer than
`SESSION_TIMEOUT`. -/
def cleanupSessions (now : Int) (s : SessionInternal) : Option SessionInternal :=
  let online := (s.users.filter fun p => p.2.sockets.any Socket.ready).length
  if online == 0 && s.emptyAt != 0 && now - s.emptyAt > SESSION_TIMEOUT then none
  else some s

/-- one tick of the periodic cleanup timer (`startCleanup`):
`cleanupSessions();` then `cleanupOfflineUsers();`. -/
def cleanupTick (now : Int) (store : Option SessionInternal) :
    Option SessionInternal × List Send :=
  match store with
  | none => (none, [])
  | some s =>
    match cleanupSessions now s with
    | none => (none, [])
    | some s1 =>
      let (s2, sends) := cleanupOfflineUsers now s1
      (some s2, sends)

/-! ## Concrete fixtures (the spec's virtual-clock scenario data) -/

def sampleIntervals : List Interval :=
  [⟨"Work".toList, 25, "Default".toList, []⟩,
   ⟨"Break".toList, 5, "Default".toList, []⟩,
   ⟨"Long Break".toList, 15, "Default".toList, []⟩]

def uuidA : Str := "aaaaaaaa-aaaa-4aaa-8aaa-aaaaaaaaaaaa".toList

def uuidB : Str := "bbbbbbbb-bbbb-4bbb-8bbb-bbbbbbbbbbbb".toList

def roomId : Str := "room".toList

def oneInterval : List Interval := [⟨"Work".toList, 25, "Default".toList, []⟩]

def updFix : SessionUpdate :=
  { name := "oldname".toList, description := []
    intervals := { lastUpdated := some 1, items := .arr oneInterval } }

def twFix : TimerState :=
  { repeatFlag := false, interval := 0, remaining := 25000, isRunning := false, isPaused := false }

def userAFix : User :=
  { clientId := uuidA, name := "Alice".toList, avatarUrl := [], isOnline := true }

def userBFix : User :=
  { clientId := uuidB, name := "Bob".toList, avatarUrl := [], isOnline := true }

def dummySession : SessionInternal := createSession 0 roomId updFix twFix

/-- state after client A joins the fresh session `room` at t=1000 on
socket s1. -/
def join1Res : Option (SessionInternal × List Send) :=
  handleSessionJoin 1000 "s1".toList [] roomId updFix twFix userAFix none

def join1Session : SessionInternal := (join1Res.map Prod.fst).getD dummySession

/-! ## Claim C9: `stop()` resets everything but the repeat flag -/

/-- C9: for every non-empty interval list and every starting timer
state, after `stop()` the state has `interval = 0`,
`remaining = items[0].duration*1000`, is neither running nor paused,
has all timing baselines zeroed (including `startedInterval`), and the
repeat flag is unchanged. -/
theorem C9_stop_reset (tc : TimerCore) (h : tc.intervals ≠ []) :
    (TimerCore.stop tc).state.interval = 0 ∧
    (TimerCore.stop tc).state.remaining = (tc.intervals.head h).duration * 1000 ∧
    (TimerCore.stop tc).state.isRunning = false ∧
    (TimerCore.stop tc).state.isPaused = false ∧
    (TimerCore.stop tc).state.startedAt = 0 ∧
    (TimerCore.stop tc).state.startedInterval = 0 ∧
    (TimerCore.stop tc).state.pausedAt = 0 ∧
    (TimerCore.stop tc).state.timePaused = 0 ∧
    (TimerCore.stop tc).state.repeatFlag = tc.state.repeatFlag := by
  obtain ⟨ivs, st⟩ := tc
  cases ivs with
  | nil => exact absurd rfl h
  | cons a l =>
    simp [TimerCore.stop, stoppedState, headDurMs]

/-- C9 witness at the spec's scenario data. -/
theorem C9_stop_reset_witness :
    (TimerCore.stop (TimerCore.start 1000000 (TimerCore.init sampleIntervals))).state.remaining = 25000 ∧
    (TimerCore.stop (TimerCore.start 1000000 (TimerCore.init sampleIntervals))).state.startedAt = 0 ∧
    (TimerCore.stop (TimerCore.start 1000000 (TimerCore.init sampleIntervals))).state.interval = 0 := by
  have h := C9_stop_reset (TimerCore.start 1000000 (TimerCore.init sampleIntervals)) (by decide)
  refine ⟨?_, h.2.2.2.2.1, h.1⟩
  rw [h.2.1]; decide

/-! ## Claim C4: the not-running invariant -/

/-- The spec's timer-state invariant, stated disjunctively: either the
timer is running, or all timing baselines are zero and it is not
paused.  (Equivalent to: if `isRunning` is false then `startedAt = 0`,
`pausedAt = 0`, `timePaused = 0` and `isPaused = false`.) -/
def TimerInv (t : TimerStateInternal) : Prop :=
  t.isRunning = true ∨
    (t.startedAt = 0 ∧ t.pausedAt = 0 ∧ t.timePaused = 0 ∧ t.isPaused = false)

instance (t : TimerStateInternal) : Decidable (TimerInv t) := by
  unfold TimerInv; infer_instance

/-- C4 counterexample: the freshly constructed timer satisfies the
invariant, but `pause()` on that (stopped) timer leaves `isRunning`
false while setting `isPaused` and a non-zero `pausedAt` — the
invariant is not preserved by `pause`. -/
theorem C4_pause_breaks_inv :
    TimerInv (TimerCore.init sampleIntervals).state ∧
    (TimerCore.pause 5 (TimerCore.init sampleIntervals)).state.isRunning = false ∧
    (TimerCore.pause 5 (TimerCore.init sampleIntervals)).state.isPaused = true ∧
    (TimerCore.pause 5 (TimerCore.init sampleIntervals)).state.pausedAt = 5 ∧
    ¬ TimerInv (TimerCore.pause 5 (TimerCore.init sampleIntervals)).state := by
  refine ⟨Or.inr (by decide), by decide, by decide, by decide, by decide⟩

/-- C4 (amended): every TimerCore operation except `pause` and
`updateState` preserves the timer-state invariant; `pause` preserves it
when the timer is running (on a stopped timer it creates the tolerated
degenerate paused-while-stopped state); `updateState` establishes it
whenever the imported state is running or not paused. -/
theorem C4_amended (now : Int) (tc : TimerCore) (e : TimerState) (value : Option Bool)
    (items : List Interval) (h : TimerInv tc.state) :
    TimerInv (TimerCore.start now tc).state ∧
    (tc.state.isRunning = true → TimerInv (TimerCore.pause now tc).state) ∧
    TimerInv (TimerCore.stop tc).state ∧
    TimerInv (TimerCore.repeatOp value tc).state ∧
    TimerInv (TimerCore.next now tc).state ∧
    TimerInv (TimerCore.resume now tc).state ∧
    (∀ tc1 ∈ TimerCore.sync now tc, TimerInv tc1.state) ∧
    TimerInv (TimerCore.updateIntervals now items tc).state ∧
    (e.isRunning = true ∨ e.isPaused = false → TimerInv (TimerCore.updateState now e tc).state) := by
  refine ⟨?_, ?_, ?_, ?_, ?_, ?_, ?_, ?_, ?_⟩
  · exact Or.inl (by simp [TimerCore.start])
  · intro hr; exact Or.inl (by simp [TimerCore.pause, hr])
  · exact Or.inr (by simp [TimerCore.stop, stoppedState])
  · rcases h with hr | hz
    · exact Or.inl (by simp [TimerCore.repeatOp, hr])
    · exact Or.inr (by simp [TimerCore.repeatOp, hz.1, hz.2.1, hz.2.2.1, hz.2.2.2])
  · by_cases hr : tc.state.isRunning = true
    · exact Or.inl (by simp [TimerCore.next, hr])
    · rcases h with h' | hz
      · exact absurd h' hr
      · refine Or.inr ?_
        simp only [TimerCore.next, Bool.not_eq_true] at hr ⊢
        simp [hr, hz.1, hz.2.1, hz.2.2.1, hz.2.2.2]
  · by_cases hp : tc.state.isPaused = true
    · rcases h with hr | hz
      · exact Or.inl (by simp [TimerCore.resume, hp, hr])
      · exact absurd hp (by simp [hz.2.2.2])
    · simp only [Bool.not_eq_true] at hp
      simpa [TimerCore.resume, hp] using h
  · intro tc1 h1
    unfold TimerCore.sync at h1
    by_cases hc : (!tc.state.isRunning || tc.state.startedAt == 0) = true
    · rw [if_pos hc] at h1; simp only [Option.mem_def, Option.some.injEq] at h1
      simpa [← h1] using h
    · rw [if_neg hc] at h1
      by_cases hl : (tc.intervals.length == 0) = true
      · rw [if_pos hl] at h1; simp only [Option.mem_def, Option.some.injEq] at h1
        simpa [← h1] using h
      · rw [if_neg hl] at h1
        have hrun : tc.state.isRunning = true := by
          cases hb : tc.state.isRunning
          · exact absurd (by simp [hb]) hc
          · rfl
        cases hloop : syncLoop tc.intervals tc.state.repeatFlag
            ((syncElapsed tc.state now).toNat + 1)
            (syncStartIdx tc.intervals tc.state) (syncElapsed tc.state now) with
        | out c r =>
          rw [hloop] at h1
          simp only [Option.mem_def, Option.some.injEq] at h1
          exact Or.inl (by rw [← h1]; simp [hrun])
        | reset =>
          rw [hloop] at h1
          simp only [Option.mem_def, Option.some.injEq] at h1
          rw [← h1]
          exact Or.inr (by simp [stoppedState])
        | fuelOut =>
          rw [hloop] at h1
          simp at h1
  · unfold TimerCore.updateIntervals
    by_cases hge : tc.state.interval ≥ (items.length : Int)
    · by_cases hr : tc.state.isRunning = true
      · exact Or.inl (by simp [hge, hr])
      · rcases h with h' | hz
        · exact absurd h' hr
        · refine Or.inr ?_
          simp [hge, hz.1, hz.2.1, hz.2.2.1, hz.2.2.2]
    · by_cases hr : tc.state.isRunning = true
      · refine Or.inl ?_
        simp only [hge, if_false, hr, if_true]
        by_cases hrem : tc.state.remaining > durMsD items tc.state.interval <;> simp [hrem, hr]
      · rcases h with h' | hz
        · exact absurd h' hr
        · simp only [Bool.not_eq_true] at hr
          refine Or.inr ?_
          simp [hge, hr, hz.1, hz.2.1, hz.2.2.1, hz.2.2.2]
  · intro he
    by_cases hr : e.isRunning = true
    · exact Or.inl (by simp [TimerCore.updateState, hr])
    · rcases he with h' | hp
      · exact absurd h' hr
      · simp only [Bool.not_eq_true] at hr
        exact Or.inr (by simp [TimerCore.updateState, hr, hp])

/-- C4 witness: the amended theorem at the scenario fixture. -/
theorem C4_amended_witness :
    TimerInv (TimerCore.stop (TimerCore.init sampleIntervals)).state ∧
    TimerInv (TimerCore.pause 7 (TimerCore.start 5 (TimerCore.init sampleIntervals))).state := by
  have h1 := C4_amended 5 (TimerCore.init sampleIntervals)
    { repeatFlag := false, interval := 0, remaining := 25000, isRunning := false, isPaused := false }
    none [] (Or.inr (by decide))
  have h2 := C4_amended 7 (TimerCore.start 5 (TimerCore.init sampleIntervals))
    { repeatFlag := false, interval := 0, remaining := 25000, isRunning := false, isPaused := false }
    none [] (Or.inl (by decide))
  exact ⟨h1.2.2.1, h2.2.1 (by decide)⟩

/-! ## Claim C10: `formatTimer` never preserves a zero `remaining` -/

/-- C10: `formatTimer` (applied by the codec to every inbound
`timer_update` and every outbound timer snapshot) replaces a `remaining`
of `0` by `DEFAULT_DURATION * 1000 = 1500000` and clamps a positive
`remaining` to at most `MAX_DURATION * 1000 = 86400000`; a wire timer
state with `remaining` exactly `0` is therefore never preserved. -/
theorem C10_formatTimer_default (t : TimerState) (now : Int) (s : SessionInternal) :
    (t.remaining = 0 → (formatTimer t).remaining = DEFAULT_DURATION * 1000) ∧
    (0 < t.remaining → (formatTimer t).remaining = min t.remaining (MAX_DURATION * 1000)) ∧
    (t.remaining = 0 → (formatTimer t).remaining ≠ 0) ∧
    formatIncoming now (.timerUpdate t) = .timerUpdate (formatTimer t) ∧
    formatTimerUpdatedMsg s = .timerUpdated (formatSessionId s.sessionId) (formatTimer s.timer.pub) := by
  refine ⟨?_, ?_, ?_, rfl, rfl⟩
  · intro h0
    simp only [formatTimer, h0, if_pos rfl, DEFAULT_DURATION, MAX_DURATION]
    norm_num
  · intro hpos
    have hne : ¬ t.remaining = 0 := by omega
    simp only [formatTimer, if_neg hne, MAX_DURATION]
    omega
  · intro h0
    simp only [formatTimer, h0, if_pos rfl, DEFAULT_DURATION, MAX_DURATION]
    norm_num

/-- a wire timer state with `remaining = 0`. -/
def zeroRemTimer : TimerState :=
  { repeatFlag := false, interval := 0, remaining := 0, isRunning := false, isPaused := false }

/-- a wire timer state with an over-large `remaining`. -/
def bigRemTimer : TimerState :=
  { repeatFlag := false, interval := 0, remaining := 99999999, isRunning := true, isPaused := false }

/-- C10 witness: `remaining = 0` becomes the default, an over-large
positive `remaining` is clamped to 24h. -/
theorem C10_formatTimer_default_witness :
    (formatTimer zeroRemTimer).remaining = 1500000 ∧
    (formatTimer bigRemTimer).remaining = 86400000 := by
  have h1 := (C10_formatTimer_default zeroRemTimer 0 dummySession).1 rfl
  have h2 := (C10_formatTimer_default bigRemTimer 0 dummySession).2.1 (by norm_num [bigRemTimer])
  refine ⟨by simpa [DEFAULT_DURATION] using h1, by rw [h2]; decide⟩

/-! ## Properties of the `sync()` loop -/

/-- total remaining milliseconds from interval `c` to the end of the
list. -/
def totalFromMs (items : List Interval) (c : Nat) : Int :=
  ((items.drop c).map (fun iv => iv.duration * 1000)).sum

theorem durAt_ge_1000 (items : List Interval) (hd : ∀ iv ∈ items, 1 ≤ iv.duration)
    (c : Nat) (hc : c < items.length) : 1000 ≤ durAt items c := by
  have hg : items.get? c = some (items.get ⟨c, hc⟩) := List.get?_eq_get hc
  have hmem : items.get ⟨c, hc⟩ ∈ items := List.get_mem items c hc
  have h1 := hd _ hmem
  simp only [durAt, hg, Option.map_some', Option.getD_some]
  omega

theorem headDurMs_ge_1000 (items : List Interval) (hd : ∀ iv ∈ items, 1 ≤ iv.duration)
    (hne : items ≠ []) : 1000 ≤ headDurMs items := by
  cases items with
  | nil => exact absurd rfl hne
  | cons a l =>
    have := hd a (by simp)
    simp only [headDurMs, List.head?_cons, Option.map_some', Option.getD_some]
    omega

theorem syncStartIdx_lt (items : List Interval) (t : TimerStateInternal)
    (h : 0 < items.length) : syncStartIdx items t < items.length := by
  unfold syncStartIdx
  split
  · exact h
  · rename_i hlt
    omega

theorem totalFromMs_cons (items : List Interval) (c : Nat) (hc : c < items.length) :
    totalFromMs items c = durAt items c + totalFromMs items (c + 1) := by
  have hdrop : items.drop c = items.get ⟨c, hc⟩ :: items.drop (c + 1) :=
    List.drop_eq_getElem_cons hc
  have hg : items.get? c = some (items.get ⟨c, hc⟩) := List.get?_eq_get hc
  rw [totalFromMs, hdrop, List.map_cons, List.sum_cons, totalFromMs, durAt, hg]
  simp

theorem totalFromMs_nonneg (items : List Interval) (hd : ∀ iv ∈ items, 1 ≤ iv.duration)
    (c : Nat) : 0 ≤ totalFromMs items c := by
  refine List.sum_nonneg ?_
  intro x hx
  simp only [List.mem_map] at hx
  obtain ⟨iv, hiv, hrfl⟩ := hx
  have := hd iv (List.mem_of_mem_drop hiv)
  omega

theorem syncLoop_ne_fuelOut (items : List Interval) (rp : Bool)
    (hd : ∀ iv ∈ items, 1 ≤ iv.duration) :
    ∀ (fuel : Nat) (c : Nat) (r : Int), r.toNat < fuel → c < items.length →
      syncLoop items rp fuel c r ≠ .fuelOut := by
  intro fuel
  induction fuel with
  | zero => intro c r hr hc; exact (Nat.not_lt_zero _ hr).elim
  | succ f ih =>
    intro c r hr hc
    unfold syncLoop
    by_cases h0 : r ≤ 0
    · simp [h0]
    · rw [if_neg h0]
      by_cases hlt : r < durAt items c
      · simp [hlt]
      · rw [if_neg hlt]
        have hdur := durAt_ge_1000 items hd c hc
        have hr' : (r - durAt items c).toNat < f := by omega
        by_cases hge : c + 1 ≥ items.length
        · rw [if_pos hge]
          cases rp with
          | false => simp
          | true => exact ih 0 _ hr' (by omega)
        · rw [if_neg hge]
          exact ih (c + 1) _ hr' (by omega)

theorem syncLoop_out_bounds (items : List Interval) (rp : Bool) :
    ∀ (fuel : Nat) (c : Nat) (r : Int) (c1 : Nat) (r1 : Int), c < items.length →
      syncLoop items rp fuel c r = .out c1 r1 →
      c1 < items.length ∧ (r1 ≤ 0 ∨ r1 < durAt items c1) := by
  intro fuel
  induction fuel with
  | zero => intro c r c1 r1 hc heq; exact absurd heq (by simp [syncLoop])
  | succ f ih =>
    intro c r c1 r1 hc heq
    unfold syncLoop at heq
    by_cases h0 : r ≤ 0
    · rw [if_pos h0] at heq
      obtain ⟨rfl, rfl⟩ : c = c1 ∧ r = r1 := by
        cases heq; exact ⟨rfl, rfl⟩
      exact ⟨hc, Or.inl h0⟩
    · rw [if_neg h0] at heq
      by_cases hlt : r < durAt items c
      · rw [if_pos hlt] at heq
        obtain ⟨rfl, rfl⟩ : c = c1 ∧ r = r1 := by
          cases heq; exact ⟨rfl, rfl⟩
        exact ⟨hc, Or.inr hlt⟩
      · rw [if_neg hlt] at heq
        by_cases hge : c + 1 ≥ items.length
        · rw [if_pos hge] at heq
          cases rp with
          | false => exact absurd heq (by simp)
          | true => exact ih 0 _ c1 r1 (by omega) heq
        · rw [if_neg hge] at heq
          exact ih (c + 1) _ c1 r1 (by omega) heq

theorem syncLoop_reset_of_total (items : List Interval)
    (hd : ∀ iv ∈ items, 1 ≤ iv.duration) :
    ∀ (fuel : Nat) (c : Nat) (r : Int), r.toNat < fuel → c < items.length →
      totalFromMs items c ≤ r → syncLoop items false fuel c r = .reset := by
  intro fuel
  induction fuel with
  | zero => intro c r hr hc htot; exact (Nat.not_lt_zero _ hr).elim
  | succ f ih =>
    intro c r hr hc htot
    have hdur := durAt_ge_1000 items hd c hc
    have hrest := totalFromMs_nonneg items hd (c + 1)
    have hsplit := totalFromMs_cons items c hc
    unfold syncLoop
    rw [if_neg (by omega : ¬ r ≤ 0), if_neg (by omega : ¬ r < durAt items c)]
    by_cases hge : c + 1 ≥ items.length
    · rw [if_pos hge]; simp
    · rw [if_neg hge]
      have htot' : totalFromMs items (c + 1) ≤ r - durAt items c := by omega
      exact ih (c + 1) _ (by omega) (by omega) htot'

/-! ## Claim C6: `sync()` is safe -/

/-- C6: for every well-formed timer state (`remaining ≥ 0`, as the data
model clamps it) and every interval list with data-model durations
(`≥ 1` second), `sync()` terminates and never returns a state with
`remaining < 0`; and when the timer is running with `repeat` off and the
elapsed time has reached past the end of the last interval, `sync()`
returns exactly the state `stop()` would produce. -/
theorem C6_sync_safe (now : Int) (tc : TimerCore)
    (hd : ∀ iv ∈ tc.intervals, 1 ≤ iv.duration)
    (hrem : 0 ≤ tc.state.remaining) :
    TimerCore.sync now tc ≠ none ∧
    (∀ tc1 ∈ TimerCore.sync now tc, 0 ≤ tc1.state.remaining) ∧
    (tc.state.isRunning = true → tc.state.startedAt ≠ 0 → tc.state.repeatFlag = false →
      tc.intervals ≠ [] →
      totalFromMs tc.intervals (syncStartIdx tc.intervals tc.state) ≤ syncElapsed tc.state now →
      TimerCore.sync now tc = some (TimerCore.stop tc)) := by
  unfold TimerCore.sync
  by_cases hc : (!tc.state.isRunning || tc.state.startedAt == 0) = true
  · rw [if_pos hc]
    refine ⟨by simp, ?_, ?_⟩
    · intro tc1 h1
      simp only [Option.mem_def, Option.some.injEq] at h1
      simpa [← h1] using hrem
    · intro hr hsa _ _ _
      exact absurd hc (by simp [hr, hsa])
  · rw [if_neg hc]
    by_cases hl : (tc.intervals.length == 0) = true
    · rw [if_pos hl]
      refine ⟨by simp, ?_, ?_⟩
      · intro tc1 h1
        simp only [Option.mem_def, Option.some.injEq] at h1
        simpa [← h1] using hrem
      · intro _ _ _ hne _
        simp only [beq_iff_eq, List.length_eq_zero] at hl
        exact absurd hl hne
    · rw [if_neg hl]
      have hlen : 0 < tc.intervals.length := by
        simp only [beq_iff_eq] at hl
        omega
      have hstart := syncStartIdx_lt tc.intervals tc.state hlen
      have hfuel : (syncElapsed tc.state now).toNat < (syncElapsed tc.state now).toNat + 1 :=
        Nat.lt_succ_self _
      cases hloop : syncLoop tc.intervals tc.state.repeatFlag
          ((syncElapsed tc.state now).toNat + 1)
          (syncStartIdx tc.intervals tc.state) (syncElapsed tc.state now) with
      | fuelOut =>
        exact absurd hloop (syncLoop_ne_fuelOut tc.intervals tc.state.repeatFlag hd _ _ _ hfuel hstart)
      | reset =>
        refine ⟨by simp, ?_, fun _ _ _ _ _ => rfl⟩
        intro tc1 h1
        simp only [Option.mem_def, Option.some.injEq] at h1
        rw [← h1]
        have := headDurMs_ge_1000 tc.intervals hd (by intro h'; rw [h'] at hlen; simp at hlen)
        simp only [stoppedState]
        omega
      | out c1 r1 =>
        have hb := syncLoop_out_bounds tc.intervals tc.state.repeatFlag _ _ _ c1 r1 hstart hloop
        have hdur := durAt_ge_1000 tc.intervals hd c1 hb.1
        refine ⟨by simp, ?_, ?_⟩
        · intro tc1 h1
          simp only [Option.mem_def, Option.some.injEq] at h1
          rw [← h1]
          rcases hb.2 with h' | h' <;> · simp only; omega
        · intro hr hsa hrp hne htot
          rw [hrp] at hloop
          have := syncLoop_reset_of_total tc.intervals hd _ _ _ hfuel hstart htot
          rw [this] at hloop
          exact absurd hloop (by simp)

/-- C6 witness: the spec's scenario S1 — mid-run `sync` succeeds, and at
`T+45000` (past the 45s total) `sync` performs the full `stop()`
reset. -/
theorem C6_sync_safe_witness :
    TimerCore.sync 1010000 (TimerCore.start 1000000 (TimerCore.init sampleIntervals)) ≠ none ∧
    TimerCore.sync 1045000 (TimerCore.start 1000000 (TimerCore.init sampleIntervals)) =
      some (TimerCore.stop (TimerCore.start 1000000 (TimerCore.init sampleIntervals))) := by
  have h1 := C6_sync_safe 1010000 (TimerCore.start 1000000 (TimerCore.init sampleIntervals))
    (by decide) (by decide)
  have h2 := C6_sync_safe 1045000 (TimerCore.start 1000000 (TimerCore.init sampleIntervals))
    (by decide) (by decide)
  exact ⟨h1.1, h2.2.2 (by decide) (by decide) (by decide) (by decide) (by decide)⟩

/-! ## Claim C7: a pause/resume pair is transparent to `sync` -/

/-- C7: for a running, unpaused timer, `pause()` at `t`, `resume()` at
`t + d`, then `sync()` at `u` yields the same `(interval, remaining)`
as `sync()` at `u - d` with no intervening pause: the pause span `d` is
excluded from the elapsed time. -/
theorem C7_pause_resume_transparent (tc : TimerCore) (t d u : Int)
    (hr : tc.state.isRunning = true) (hp : tc.state.isPaused = false) :
    (TimerCore.sync u (TimerCore.resume (t + d) (TimerCore.pause t tc))).map
        (fun x => (x.state.interval, x.state.remaining)) =
      (TimerCore.sync (u - d) tc).map (fun x => (x.state.interval, x.state.remaining)) := by
  obtain ⟨ivs, st⟩ := tc
  obtain ⟨rp, iv, rem, run, ps, si, sa, pa, tp⟩ := st
  simp only at hr hp
  subst hr; subst hp
  have hres : TimerCore.resume (t + d) (TimerCore.pause t ⟨ivs, ⟨rp, iv, rem, true, false, si, sa, pa, tp⟩⟩) =
      ⟨ivs, ⟨rp, iv, rem, true, false, si, sa, 0, tp + (t + d - t)⟩⟩ := by
    simp [TimerCore.pause, TimerCore.resume]
  rw [hres]
  have harith : tp + (t + d - t) = tp + d := by ring
  rw [harith]
  simp only [TimerCore.sync, Bool.not_true, Bool.false_or]
  by_cases hsa : (sa == 0) = true
  · rw [if_pos hsa, if_pos hsa]; simp
  · rw [if_neg hsa, if_neg hsa]
    by_cases hlen : (ivs.length == 0) = true
    · rw [if_pos hlen, if_pos hlen]; simp
    · rw [if_neg hlen, if_neg hlen]
      have he : syncElapsed ⟨rp, iv, rem, true, false, si, sa, 0, tp + d⟩ u =
          syncElapsed ⟨rp, iv, rem, true, false, si, sa, pa, tp⟩ (u - d) := by
        simp only [syncElapsed, syncOffset]
        norm_num
        ring
      rw [he]
      have hidx : syncStartIdx ivs ⟨rp, iv, rem, true, false, si, sa, 0, tp + d⟩ =
          syncStartIdx ivs ⟨rp, iv, rem, true, false, si, sa, pa, tp⟩ := rfl
      rw [hidx]
      cases hloop : syncLoop ivs rp
          ((syncElapsed ⟨rp, iv, rem, true, false, si, sa, pa, tp⟩ (u - d)).toNat + 1)
          (syncStartIdx ivs ⟨rp, iv, rem, true, false, si, sa, pa, tp⟩)
          (syncElapsed ⟨rp, iv, rem, true, false, si, sa, pa, tp⟩ (u - d)) with
      | out c1 r1 => rfl
      | reset => rfl
      | fuelOut => rfl

/-- C7 witness: scenario S3 — pausing 5s into the run for 3s and
resuming gives the same observation as a 3s-earlier `sync` without the
pause. -/
theorem C7_pause_resume_transparent_witness :
    (TimerCore.sync 1023000 (TimerCore.resume 1008000
        (TimerCore.pause 1005000 (TimerCore.start 1000000 (TimerCore.init sampleIntervals))))).map
        (fun x => (x.state.interval, x.state.remaining)) =
      (TimerCore.sync 1020000 (TimerCore.start 1000000 (TimerCore.init sampleIntervals))).map
        (fun x => (x.state.interval, x.state.remaining)) := by
  have h := C7_pause_resume_transparent (TimerCore.start 1000000 (TimerCore.init sampleIntervals))
    1005000 3000 1023000 (by decide) (by decide)
  simpa using h

/-! ## Claim C8: `updateState` round-trips through `sync` -/

/-- C8 counterexample: for the external state
`{interval := 0, remaining := 0, isRunning := true}` over the scenario
interval list, `updateState` followed by `sync` at the same clock value
returns `(interval, remaining) = (1, 5000)` — off from the external
`(0, 0)` by a whole interval, far beyond 1 ms. -/
theorem C8_roundtrip_cex :
    (TimerCore.sync 1000000 (TimerCore.updateState 1000000
        { repeatFlag := false, interval := 0, remaining := 0, isRunning := true, isPaused := false }
        (TimerCore.init sampleIntervals))).map
        (fun x => (x.state.interval, x.state.remaining)) = some (1, 5000) ∧
    ((1 : Int), (5000 : Int)) ≠ ((0 : Int), (0 : Int)) ∧
    ¬ ((5000 : Int) - 0 ≤ 1) := by
  refine ⟨by decide, by decide, by decide⟩

/-- C8 (amended): for every non-empty interval list and every external
public timer state whose `interval` is a valid index and which is
either not running or has `remaining ≥ 1`, `updateState(external)`
followed by `sync()` at the same `now` returns exactly
`(external.interval, external.remaining)` (0 ms error).  When
`remaining = 0` and the timer is running, `sync` instead advances past
the interval boundary (see the counterexample). -/
theorem C8_roundtrip_amended (now : Int) (tc : TimerCore) (e : TimerState)
    (hge : 0 ≤ e.interval) (hlt : e.interval < (tc.intervals.length : Int))
    (hrem : e.isRunning = false ∨ 1 ≤ e.remaining) :
    (TimerCore.sync now (TimerCore.updateState now e tc)).map
        (fun x => (x.state.interval, x.state.remaining)) = some (e.interval, e.remaining) := by
  obtain ⟨ivs, st⟩ := tc
  obtain ⟨erp, ei, er, erun, eps⟩ := e
  simp only at hge hlt hrem ⊢
  unfold TimerCore.updateState
  dsimp only
  cases erun with
  | false =>
    simp [TimerCore.sync]
  | true =>
    have hr1 : 1 ≤ er := by
      rcases hrem with h | h
      · exact absurd h (by simp)
      · exact h
    have hlen0 : ivs.length ≠ 0 := by omega
    simp only [TimerCore.sync, Bool.not_true, Bool.false_or, if_true]
    by_cases hsa : (now - (durMsD ivs ei - er) == 0) = true
    · rw [if_pos hsa]; simp
    · rw [if_neg hsa]
      rw [if_neg (by simpa using hlen0)]
      have hoff : syncOffset ⟨erp, ei, er, true, eps, ei, now - (durMsD ivs ei - er),
          if eps = true then now else 0, 0⟩ now = 0 := by
        unfold syncOffset
        cases eps with
        | false => simp
        | true => simp
      have hel : syncElapsed ⟨erp, ei, er, true, eps, ei, now - (durMsD ivs ei - er),
          if eps = true then now else 0, 0⟩ now = durMsD ivs ei - er := by
        unfold syncElapsed
        rw [hoff]
        dsimp only
        ring
      rw [hel]
      have hidx : syncStartIdx ivs ⟨erp, ei, er, true, eps, ei, now - (durMsD ivs ei - er),
          if eps = true then now else 0, 0⟩ = ei.toNat := by
        unfold syncStartIdx
        rw [if_neg (by dsimp only; omega)]
      rw [hidx]
      have hda : durAt ivs ei.toNat = durMsD ivs ei := by
        unfold durAt durMsD jsIndex
        rw [if_neg (by omega)]
      have hloop : syncLoop ivs erp ((durMsD ivs ei - er).toNat + 1) ei.toNat
          (durMsD ivs ei - er) = .out ei.toNat (durMsD ivs ei - er) := by
        rw [syncLoop]
        by_cases h0 : durMsD ivs ei - er ≤ 0
        · rw [if_pos h0]
        · rw [if_neg h0, if_pos (by rw [hda]; omega)]
      rw [hloop]
      simp [Int.toNat_of_nonneg hge, hda]

/-- C8 witness: the amended round-trip at a concrete mid-interval
external state. -/
theorem C8_roundtrip_amended_witness :
    (TimerCore.sync 1000000 (TimerCore.updateState 1000000
        { repeatFlag := false, interval := 1, remaining := 3000, isRunning := true, isPaused := false }
        (TimerCore.init sampleIntervals))).map
        (fun x => (x.state.interval, x.state.remaining)) = some (1, 3000) := by
  have h := C8_roundtrip_amended 1000000 (TimerCore.init sampleIntervals)
    { repeatFlag := false, interval := 1, remaining := 3000, isRunning := true, isPaused := false }
    (by decide) (by decide) (Or.inr (by decide))
  simpa using h

/-! ## String sanitisation lemmas -/

theorem jsTrim_idem (s : Str) : jsTrim (jsTrim s) = jsTrim s := by
  unfold jsTrim
  have h1 : List.dropWhile isJsWS ((List.dropWhile isJsWS s).rdropWhile isJsWS) =
      (List.dropWhile isJsWS s).rdropWhile isJsWS := by
    rw [List.dropWhile_eq_self_iff]
    intro hl
    have hpre : (List.dropWhile isJsWS s).rdropWhile isJsWS <+: List.dropWhile isJsWS s :=
      List.rdropWhile_prefix _ _
    have hlen : 0 < (List.dropWhile isJsWS s).length :=
      Nat.lt_of_lt_of_le hl hpre.length_le
    have hget : ((List.dropWhile isJsWS s).rdropWhile isJsWS).get ⟨0, hl⟩ =
        (List.dropWhile isJsWS s).get ⟨0, hlen⟩ := by
      have h0 := hpre.getElem hl
      simpa [List.get_eq_getElem] using h0
    rw [hget]
    exact List.dropWhile_get_zero_not isJsWS s hlen
  rw [h1, List.rdropWhile_idempotent]

theorem jsTrim_eq_self (s : Str) (h : ∀ c ∈ s, isJsWS c = false) : jsTrim s = s := by
  unfold jsTrim
  have h1 : List.dropWhile isJsWS s = s :=
    List.dropWhile_eq_self_iff.mpr (fun hl => by
      simpa using h _ (List.get_mem s 0 hl))
  rw [h1]
  exact List.rdropWhile_eq_self_iff.mpr (fun hl => by
    simpa using h _ (List.getLast_mem hl))

theorem jsSubstr_jsTrim_idem (n : Nat) (s : Str) (h : (jsTrim s).length ≤ n) :
    jsSubstr n (jsTrim (jsSubstr n (jsTrim s))) = jsSubstr n (jsTrim s) := by
  unfold jsSubstr
  rw [List.take_of_length_le h, jsTrim_idem, List.take_of_length_le h]

theorem sessionIdOk_no_ws (s : Str) (h : sessionIdOk s = true) :
    ∀ c ∈ s, isJsWS c = false := by
  intro c hc
  simp only [sessionIdOk, Bool.and_eq_true, List.all_eq_true] at h
  have hz := h.2 c hc
  cases hws : isJsWS c with
  | false => rfl
  | true =>
    exfalso
    simp only [isJsWS, Bool.or_eq_true, Bool.and_eq_true, beq_iff_eq,
      decide_eq_true_eq] at hws
    simp only [isSessionIdChar, Bool.or_eq_true, Bool.and_eq_true, beq_iff_eq,
      decide_eq_true_eq] at hz
    omega

theorem formatSessionId_idem (s : Str) :
    formatSessionId (formatSessionId s) = formatSessionId s := by
  unfold formatSessionId
  by_cases h : sessionIdOk (jsTrim s) = true
  · rw [if_pos h]
    rw [jsTrim_eq_self (jsTrim s) (sessionIdOk_no_ws _ h), if_pos h]
  · rw [if_neg h]
    decide

/-! ## Claim C5: codec idempotence -/

/-- the string fields of an interval, once trimmed, fit their
limits. -/
def GoodIntervalList (il : IntervalList) : Prop :=
  ∀ iv ∈ il.items.list,
    (jsTrim iv.name).length ≤ MAX_NAME_LENGTH ∧ (jsTrim iv.alert).length ≤ MAX_NAME_LENGTH

def GoodSessionUpdate (su : SessionUpdate) : Prop :=
  (jsTrim su.name).length ≤ MAX_STRING_LENGTH ∧
  (jsTrim su.description).length ≤ MAX_STRING_LENGTH ∧
  GoodIntervalList su.intervals

def GoodTimer (t : TimerState) : Prop := 0 ≤ t.remaining

def GoodUser (u : User) : Prop :=
  (jsTrim u.name).length ≤ MAX_NAME_LENGTH ∧ (jsTrim u.avatarUrl).length ≤ MAX_URL_LENGTH

/-- the hypothesis under which sanitisation is idempotent: every string
field fits its length limit after trimming (so truncation cannot expose
new trailing whitespace) and the timer `remaining` is not negative (so
clamping cannot produce the falsy `0`). -/
def GoodMsg : Msg → Prop
  | .sessionJoin _ su t u => GoodSessionUpdate su ∧ GoodTimer t ∧ GoodUser u
  | .sessionUpdate su t => GoodSessionUpdate su ∧ ∀ tw ∈ t, GoodTimer tw
  | .timerUpdate t => GoodTimer t
  | .userUpdate u => GoodUser u
  | .userList => True
  | .ping => True

instance (il : IntervalList) : Decidable (GoodIntervalList il) := by
  unfold GoodIntervalList; infer_instance

instance (su : SessionUpdate) : Decidable (GoodSessionUpdate su) := by
  unfold GoodSessionUpdate; infer_instance

instance (m : Msg) : Decidable (GoodMsg m) := by
  cases m <;> · unfold GoodMsg GoodTimer GoodUser; infer_instance

theorem formatTimer_idem (t : TimerState) (h : GoodTimer t) :
    formatTimer (formatTimer t) = formatTimer t := by
  obtain ⟨rp, iv, rem, run, ps⟩ := t
  unfold GoodTimer at h
  simp only at h
  simp only [formatTimer, DEFAULT_DURATION, MAX_DURATION, MAX_SAFE_INTEGER,
    TimerState.mk.injEq, true_and, and_true]
  refine ⟨by omega, ?_⟩
  split_ifs <;> omega

theorem formatInterval_idem (iv : Interval)
    (h1 : (jsTrim iv.name).length ≤ MAX_NAME_LENGTH)
    (h2 : (jsTrim iv.alert).length ≤ MAX_NAME_LENGTH) :
    formatInterval (formatInterval iv) = formatInterval iv := by
  obtain ⟨nm, dur, al, css⟩ := iv
  simp only at h1 h2
  simp only [formatInterval, Interval.mk.injEq]
  refine ⟨jsSubstr_jsTrim_idem _ _ h1, ?_, ?_, jsTrim_idem css⟩
  · simp only [MIN_DURATION, MAX_DURATION, DEFAULT_DURATION]
    split_ifs <;> omega
  · by_cases ha : jsSubstr MAX_NAME_LENGTH (jsTrim al) = []
    · rw [if_pos ha]
      decide
    · rw [if_neg ha]
      have hta : jsSubstr MAX_NAME_LENGTH (jsTrim al) = jsTrim al := by
        unfold jsSubstr
        exact List.take_of_length_le h2
      have ha1 : jsTrim al ≠ [] := by rwa [hta] at ha
      rw [hta, jsTrim_idem, hta, if_neg ha1]

theorem formatIntervalList_idem (now1 now2 : Int) (il : IntervalList)
    (h : GoodIntervalList il) :
    formatIntervalList now2 (formatIntervalList now1 il) = formatIntervalList now1 il := by
  obtain ⟨lu, it⟩ := il
  simp only [formatIntervalList, IntervalList.mk.injEq]
  refine ⟨by cases lu <;> simp, ?_⟩
  cases it with
  | notArr => simp
  | arr l =>
    simp only [ItemsVal.arr.injEq, List.map_map]
    refine List.map_congr_left ?_
    intro iv hiv
    have hg := h iv (by simpa [ItemsVal.list] using hiv)
    exact formatInterval_idem iv hg.1 hg.2

theorem formatUser_idem (u : User) (h : GoodUser u) :
    formatUser (formatUser u) = formatUser u := by
  obtain ⟨cid, nm, av, onl⟩ := u
  obtain ⟨h1, h2⟩ := h
  simp only at h1 h2
  simp only [formatUser, User.mk.injEq, true_and, and_true]
  exact ⟨jsSubstr_jsTrim_idem _ _ h1, jsSubstr_jsTrim_idem _ _ h2⟩

theorem formatSessionUpdate_idem (now1 now2 : Int) (su : SessionUpdate)
    (h : GoodSessionUpdate su) :
    formatSessionUpdate now2 (formatSessionUpdate now1 su) = formatSessionUpdate now1 su := by
  obtain ⟨nm, ds, il⟩ := su
  obtain ⟨h1, h2, h3⟩ := h
  simp only at h1 h2
  simp only [formatSessionUpdate, SessionUpdate.mk.injEq]
  exact ⟨jsSubstr_jsTrim_idem _ _ h1, jsSubstr_jsTrim_idem _ _ h2,
    formatIntervalList_idem now1 now2 il h3⟩

/-- a `user_update` whose user name is `"a"`, 49 spaces, `"b"`:
trimming leaves 51 characters, truncation to 50 exposes 49 trailing
spaces, and a second sanitisation pass removes them. -/
def c5BadMsg : Msg :=
  .userUpdate
    { clientId := []
      name := "a".toList ++ List.replicate 49 (Char.ofNat 32) ++ "b".toList
      avatarUrl := [], isOnline := true }

/-- C5 counterexample: sanitisation is not idempotent — re-formatting
the codec-produced form of `c5BadMsg` changes it again (the truncated
name `"a" ++ 49 spaces` trims to `"a"` on the second pass). -/
theorem C5_not_idempotent_cex :
    formatIncoming 0 (formatIncoming 0 c5BadMsg) ≠ formatIncoming 0 c5BadMsg := by
  decide

/-- C5 (amended): `formatIncoming` is idempotent on every inbound
message whose string fields, once trimmed, fit their length limits
(name/alert ≤ 50, avatarUrl ≤ 500, session name/description ≤ 1000) and
whose timer `remaining` is non-negative.  In general truncation can
leave trailing whitespace that only the second pass trims (see the
counterexample), and a negative `remaining` clamps to `0`, which a
second pass replaces with the default. -/
theorem C5_codec_idempotent_amended (m : Msg) (now1 now2 : Int) (h : GoodMsg m) :
    formatIncoming now2 (formatIncoming now1 m) = formatIncoming now1 m := by
  cases m with
  | sessionJoin sid su tw u =>
    obtain ⟨h1, h2, h3⟩ := h
    simp only [formatIncoming, formatSessionJoinMsg, Msg.sessionJoin.injEq]
    exact ⟨formatSessionId_idem sid, formatSessionUpdate_idem now1 now2 su h1,
      formatTimer_idem tw h2, formatUser_idem u h3⟩
  | sessionUpdate su tw =>
    obtain ⟨h1, h2⟩ := h
    simp only [formatIncoming, formatSessionUpdateMsg, Msg.sessionUpdate.injEq]
    refine ⟨formatSessionUpdate_idem now1 now2 su h1, ?_⟩
    cases tw with
    | none => rfl
    | some t =>
      simp only [Option.map_some', Option.some.injEq]
      exact formatTimer_idem t (h2 t rfl)
  | timerUpdate t =>
    simp only [formatIncoming, Msg.timerUpdate.injEq]
    exact formatTimer_idem t h
  | userUpdate u =>
    simp only [formatIncoming, Msg.userUpdate.injEq]
    exact formatUser_idem u h
  | userList => rfl
  | ping => rfl

/-- C5 witness: the amended idempotence at a concrete well-formed
`session_join`. -/
theorem C5_codec_idempotent_amended_witness :
    formatIncoming 7 (formatIncoming 3 (.sessionJoin roomId updFix twFix userAFix)) =
      formatIncoming 3 (.sessionJoin roomId updFix twFix userAFix) :=
  C5_codec_idempotent_amended (.sessionJoin roomId updFix twFix userAFix) 3 7 (by decide)

/-! ## Claim C1: the "Invalid intervals data" guard -/

/-- is a delivered frame an `error` message? -/
def isErrorSend (snd : Send) : Bool :=
  match snd.msg with
  | .errorMsg _ => true
  | _ => false

theorem mem_broadcast_msg (s : SessionInternal) (m : OutMsg) (ex ig : Option Str)
    (snd : Send) (h : snd ∈ broadcastToSession s m ex ig) : snd.msg = m := by
  simp only [broadcastToSession] at h
  rw [List.mem_flatMap] at h
  obtain ⟨p, hp, hb⟩ := h
  split at hb
  · simp at hb
  · rw [List.mem_filterMap] at hb
    obtain ⟨sk, hsk, heq⟩ := hb
    split_ifs at heq
    cases heq
    rfl

theorem sync_nil (now : Int) (tc : TimerCore) (h : tc.intervals = []) :
    TimerCore.sync now tc = some tc := by
  unfold TimerCore.sync
  by_cases hc : (!tc.state.isRunning || tc.state.startedAt == 0) = true
  · rw [if_pos hc]
  · rw [if_neg hc, if_pos (by simp [h])]

/-- a raw `session_update` whose `intervals.items` is not an array. -/
def c1RawUpd : SessionUpdate :=
  { name := "newupd".toList, description := []
    intervals := { lastUpdated := none, items := .notArr } }

/-- C1 counterexample: a `session_update` with non-array
`intervals.items` reaching the broker from a joined client produces
**no** error frame at all, and the session's name is overwritten and
its interval list replaced by the empty list (the codec has already
coerced the non-array to `[]`, so the handler's guard never fires). -/
theorem C1_invalid_intervals_cex :
    ((handleSessionUpdate 5000 "s1".toList true join1Session
        (formatSessionUpdate 5000 c1RawUpd) none).map
      fun p => (p.1.name, p.1.intervals.items, p.2.any isErrorSend)) =
      some ("newupd".toList, ItemsVal.arr [], false) ∧
    join1Session.name = "oldname".toList ∧
    join1Session.intervals.items = ItemsVal.arr oneInterval ∧
    ("newupd".toList : Str) ≠ "oldname".toList ∧
    ItemsVal.arr oneInterval ≠ ItemsVal.arr [] := by
  refine ⟨by decide, by decide, by decide, by decide, by decide⟩

/-- C1 (amended): the codec (`formatIntervalList`) coerces a non-array
`intervals.items` to the empty array before dispatch, so the handler's
"Invalid intervals data" branch is unreachable: for every raw
`session_update` with non-array items, the formatted message carries
`items = []`, and the handler proceeds as a normal update — no error
frame is sent, and the session's name, description and interval list
are overwritten (the latter with the empty list). -/
theorem C1_invalid_intervals_amended (nowf nowh : Int) (senderSid : Str)
    (senderReady : Bool) (s0 : SessionInternal) (raw : SessionUpdate)
    (rawTimer : Option TimerState) (hraw : raw.intervals.items = .notArr) :
    (formatSessionUpdate nowf raw).intervals.items = .arr [] ∧
    (∀ p ∈ handleSessionUpdate nowh senderSid senderReady s0
        (formatSessionUpdate nowf raw) (rawTimer.map formatTimer),
      p.1.intervals.items = ItemsVal.arr [] ∧
      p.1.name = jsSubstr MAX_STRING_LENGTH (jsTrim (formatSessionUpdate nowf raw).name) ∧
      p.1.description =
        jsSubstr MAX_STRING_LENGTH (jsTrim (formatSessionUpdate nowf raw).description) ∧
      ∀ snd ∈ p.2, isErrorSend snd = false) := by
  have hitems : (formatSessionUpdate nowf raw).intervals.items = ItemsVal.arr [] := by
    simp [formatSessionUpdate, formatIntervalList, hraw]
  refine ⟨hitems, ?_⟩
  intro p hp
  unfold handleSessionUpdate at hp
  rw [hitems] at hp
  simp only [ItemsVal.isArr, Bool.not_true, Bool.false_eq_true, if_false, ItemsVal.list] at hp
  set upd := formatSessionUpdate nowf raw with hupd
  set s1 : SessionInternal :=
    { s0 with lastActivity := nowh, name := upd.name, description := upd.description
              intervals := upd.intervals } with hs1
  set core1 := TimerCore.updateIntervals nowh [] s1.core with hcore1
  have hnil1 : core1.intervals = [] := by
    rw [hcore1]
    simp only [TimerCore.updateIntervals]
    split_ifs <;> rfl
  have hstep : (match rawTimer.map formatTimer with
      | some tw => some (TimerCore.updateState nowh tw core1)
      | none => TimerCore.sync nowh core1) =
      some (match rawTimer.map formatTimer with
        | some tw => TimerCore.updateState nowh tw core1
        | none => core1) := by
    cases rawTimer.map formatTimer with
    | none => exact sync_nil nowh core1 hnil1
    | some tw => rfl
  rw [hstep] at hp
  set core2 := (match rawTimer.map formatTimer with
    | some tw => TimerCore.updateState nowh tw core1
    | none => core1) with hcore2
  have hnil2 : core2.intervals = [] := by
    rw [hcore2]
    cases rawTimer.map formatTimer with
    | none => exact hnil1
    | some tw => exact hnil1
  dsimp only at hp
  rw [sync_nil nowh core2 hnil2] at hp
  simp only [Option.mem_def, Option.some.injEq] at hp
  subst hp
  refine ⟨?_, ?_, ?_, ?_⟩
  · simp [formatInternalSession, formatIntervalList, hitems]
  · simp [formatInternalSession]
  · simp [formatInternalSession]
  · intro snd hsnd
    rw [List.mem_append] at hsnd
    rcases hsnd with hsnd | hsnd
    · simp [isErrorSend, mem_broadcast_msg _ _ _ _ _ hsnd, formatSessionUpdatedMsg]
    · simp [isErrorSend, mem_broadcast_msg _ _ _ _ _ hsnd, formatTimerUpdatedMsg]

/-- the broker store after the C1 scenario update. -/
def c1wRes : Option (SessionInternal × List Send) :=
  handleSessionUpdate 5000 "s1".toList true join1Session
    (formatSessionUpdate 5000 c1RawUpd) none

def c1wSession : SessionInternal := (c1wRes.map Prod.fst).getD dummySession

def c1wSends : List Send := (c1wRes.map Prod.snd).getD []

/-- C1 witness: the amended theorem applied at the concrete scenario. -/
theorem C1_invalid_intervals_amended_witness :
    (formatSessionUpdate 5000 c1RawUpd).intervals.items = ItemsVal.arr [] ∧
    c1wSession.intervals.items = ItemsVal.arr [] ∧
    c1wSession.name =
      jsSubstr MAX_STRING_LENGTH (jsTrim (formatSessionUpdate 5000 c1RawUpd).name) := by
  have h := C1_invalid_intervals_amended 5000 5000 "s1".toList true join1Session c1RawUpd
    none rfl
  have hm : (c1wSession, c1wSends) ∈ handleSessionUpdate 5000 "s1".toList true join1Session
      (formatSessionUpdate 5000 c1RawUpd) (Option.map formatTimer none) := by decide
  have h2 := h.2 (c1wSession, c1wSends) hm
  exact ⟨h.1, h2.1, h2.2.1⟩

/-! ## Claim C2: outbound clientId anonymisation -/

/-- state after B joins on socket s2 at t=2000. -/
def join2Res : Option (SessionInternal × List Send) :=
  join1Res.bind fun p =>
    handleSessionJoin 2000 "s2".toList [] roomId updFix twFix userBFix (some p.1)

/-- state after A **re**joins on socket s3 at t=3000. -/
def join3Res : Option (SessionInternal × List Send) :=
  join2Res.bind fun p =>
    handleSessionJoin 3000 "s3".toList [] roomId updFix twFix userAFix (some p.1)

/-- does some delivered `user_connected` frame carry the raw
`clientId`? -/
def hasRawUserConnected (raw : Str) : Option (SessionInternal × List Send) → Bool
  | none => false
  | some (_, sends) =>
    sends.any fun snd =>
      match snd.msg with
      | .userConnected _ u => u.clientId == raw
      | _ => false

/-- C2 failing input: after client A (raw UUID `uuidA`) joins, B joins,
and A reconnects via `session_join`, the `user_connected` broadcast of
the reconnect carries `user.clientId = uuidA` — the raw 36-character
UUID, not the 64-character SHA-256 hex digest.  The reconnect merge
(`Object.assign(existing, formatInternalUser({...user, ...}))`) has
overwritten the stored hashed id with the wire `clientId`. -/
theorem C2_raw_clientId_leak :
    hasRawUserConnected uuidA join3Res = true ∧
    uuidA.length = 36 ∧
    (hashString uuidA).length = 64 ∧
    hashString uuidA ≠ uuidA ∧
    (join3Res.map fun p => p.1.users.map fun q => q.2.clientId) =
      some [uuidA, hashString uuidB] ∧
    clientIdOk uuidA = true := by
  refine ⟨by decide, by decide, by decide, by decide, by decide, by decide⟩

/-! ## Claim C3: `emptyAt` versus open sockets -/

/-- the broker-session operations named by the claim: `session_join`,
socket close (`removeClient`), and the periodic cleanup tick. -/
inductive BrokerStep : Option SessionInternal → Option SessionInternal → Prop where
  | join (now : Int) (freshSocketId freshUuid sessionId : Str) (update : SessionUpdate)
      (timer : TimerState) (user : User) (store : Option SessionInternal)
      (s1 : SessionInternal) (sends : List Send)
      (h : handleSessionJoin now freshSocketId freshUuid sessionId update timer user store =
        some (s1, sends)) : BrokerStep store (some s1)
  | close (now : Int) (sid cid : Str) (s : SessionInternal) :
      BrokerStep (some s) (some (closeSocketOp now sid cid s).1)
  | tick (now : Int) (store : Option SessionInternal) :
      BrokerStep store (cleanupTick now store).1

/-- reachability through broker operations from a given store state. -/
def BrokerReachable : Option SessionInternal → Option SessionInternal → Prop :=
  Relation.ReflTransGen BrokerStep

def c3sends1 : List Send := (join1Res.map Prod.snd).getD []

/-- after A's only socket closes at t=2000. -/
def c3s2 : SessionInternal := (closeSocketOp 2000 "s1".toList uuidA join1Session).1

/-- after the cleanup tick at t=302001 reaps the offline user A. -/
def c3s3 : SessionInternal := ((cleanupTick 302001 (some c3s2)).1).getD dummySession

def c3joinB : Option (SessionInternal × List Send) :=
  handleSessionJoin 302002 "s2".toList [] roomId updFix twFix userBFix (some c3s3)

/-- after the brand-new client B joins the marked-empty session. -/
def c3s4 : SessionInternal := (c3joinB.map Prod.fst).getD dummySession

def c3sends4 : List Send := (c3joinB.map Prod.snd).getD []

/-- C3 counterexample: a state reachable through broker operations
(join A; A's socket closes; cleanup reaps A and the session stays
marked empty; brand-new B joins) in which B has an open socket yet
`emptyAt` is still the stamp from t=2000 — the claimed equivalence
`emptyAt ≠ null ⇔ no open socket` is violated, because the new-user
branch of `session_join` never clears `emptyAt`. -/
theorem C3_emptyAt_iff_cex :
    BrokerReachable none (some c3s4) ∧ anyReady c3s4 = true ∧ c3s4.emptyAt = 2000 := by
  refine ⟨?_, by decide, by decide⟩
  have h1 : handleSessionJoin 1000 "s1".toList [] roomId updFix twFix userAFix none =
      some (join1Session, c3sends1) := by decide
  have h3 : (cleanupTick 302001 (some c3s2)).1 = some c3s3 := by decide
  have h4 : c3joinB = some (c3s4, c3sends4) := by decide
  refine Relation.ReflTransGen.head
    (BrokerStep.join 1000 "s1".toList [] roomId updFix twFix userAFix none join1Session
      c3sends1 h1) ?_
  refine Relation.ReflTransGen.head
    (BrokerStep.close 2000 "s1".toList uuidA join1Session) ?_
  refine Relation.ReflTransGen.head
    (h3 ▸ BrokerStep.tick 302001 (some c3s2)) ?_
  exact Relation.ReflTransGen.single
    (BrokerStep.join 302002 "s2".toList [] roomId updFix twFix userBFix (some c3s3)
      c3s4 c3sends4 h4)

theorem formatInternalSession_emptyAt (now : Int) (s : SessionInternal) :
    (formatInternalSession now s).emptyAt = s.emptyAt := rfl

theorem anyReady_of_mem_ready (S : SessionInternal) (p : Str × UserInternal)
    (hm : p ∈ S.users) (hr : p.2.sockets.any Socket.ready = true) :
    anyReady S = true := by
  unfold anyReady
  rw [List.any_eq_true]
  exact ⟨p, hm, hr⟩

theorem ite_empty_emptyAt (S : SessionInternal) (h : anyReady S = true) :
    (if anyReady S && decide (S.emptyAt ≠ 0) then { S with emptyAt := 0 } else S).emptyAt
      = 0 := by
  by_cases hE : S.emptyAt = 0
  · simp [h, hE]
  · simp [h, hE]

theorem lookup_mem (cid : Str) (v : UserInternal) :
    ∀ l : List (Str × UserInternal), l.lookup cid = some v → (cid, v) ∈ l := by
  intro l
  induction l with
  | nil => intro h; simp [List.lookup] at h
  | cons p t ih =>
    obtain ⟨k, b⟩ := p
    intro h
    rw [List.lookup_cons] at h
    cases hbk : cid == k with
    | true =>
      rw [hbk] at h
      dsimp only at h
      cases h
      rw [beq_iff_eq] at hbk
      subst hbk
      exact List.mem_cons_self _ _
    | false =>
      rw [hbk] at h
      dsimp only at h
      exact List.mem_cons_of_mem _ (ih h)

/-- C3 (amended): a `session_join` into an existing session clears
`emptyAt` only when the joining `clientId` is already known (the
reconnect branch; the joining socket is open, so some peer is then
online); a `session_join` by a brand-new `clientId` leaves `emptyAt`
unchanged, so a session can hold an online user while `emptyAt` is
still set. -/
theorem C3_emptyAt_amended (now : Int) (fsid fuuid sessionId : Str)
    (update : SessionUpdate) (timer : TimerState) (user : User)
    (s0 sF : SessionInternal) (sends : List Send)
    (h : handleSessionJoin now fsid fuuid sessionId update timer user (some s0) =
      some (sF, sends)) :
    (s0.users.lookup (formatClientId fuuid user.clientId) ≠ none → sF.emptyAt = 0) ∧
    (s0.users.lookup (formatClientId fuuid user.clientId) = none → sF.emptyAt = s0.emptyAt) := by
  unfold handleSessionJoin at h
  rw [Option.map_eq_some'] at h
  obtain ⟨core1, hs, hF⟩ := h
  dsimp only at hF
  cases hlk : s0.users.lookup (formatClientId fuuid user.clientId) with
  | none =>
    rw [hlk] at hF
    dsimp only at hF
    have h1 := congrArg Prod.fst hF
    dsimp only at h1
    constructor
    · intro hne; exact absurd rfl hne
    · intro _
      rw [← h1]
      simp [formatInternalSession]
  | some existing =>
    rw [hlk] at hF
    dsimp only at hF
    have h1 := congrArg Prod.fst hF
    dsimp only at h1
    constructor
    · intro _
      rw [← h1]
      have hmem0 : (formatClientId fuuid user.clientId, existing) ∈ s0.users :=
        lookup_mem _ _ _ hlk
      rw [formatInternalSession_emptyAt]
      refine ite_empty_emptyAt _ (anyReady_of_mem_ready _
        (formatClientId fuuid user.clientId,
          formatInternalUser now
            { clientId := user.clientId, name := user.name, avatarUrl := user.avatarUrl
              isOnline := user.isOnline, lastPing := now, offlineAt := 0
              sockets := existing.sockets ++ [Socket.mk fsid true] }) ?_ ?_)
      · refine List.mem_map.mpr ⟨(formatClientId fuuid user.clientId, existing), hmem0, ?_⟩
        rw [if_pos rfl]
      · show (existing.sockets ++ [Socket.mk fsid true]).any Socket.ready = true
        rw [List.any_append]
        simp [Socket.ready]
    · intro hne
      simp at hne

/-- A reconnecting on a fresh socket s9 into the session it already
inhabits. -/
def c3wRes : Option (SessionInternal × List Send) :=
  handleSessionJoin 3000 "s9".toList [] roomId updFix twFix userAFix (some join1Session)

def c3wSession : SessionInternal := (c3wRes.map Prod.fst).getD dummySession

def c3wSends : List Send := (c3wRes.map Prod.snd).getD []

/-- C3 witness: the amended theorem at a concrete reconnect (known
clientId, peer online) — `emptyAt` is cleared. -/
theorem C3_emptyAt_amended_witness : c3wSession.emptyAt = 0 := by
  have h : handleSessionJoin 3000 "s9".toList [] roomId updFix twFix userAFix
      (some join1Session) = some (c3wSession, c3wSends) := by decide
  exact (C3_emptyAt_amended 3000 "s9".toList [] roomId updFix twFix userAFix
    join1Session c3wSession c3wSends h).1 (by decide)

end Arowa
